import Mathlib

/-!
Shallow embedding of the leaderboard service
(`src/services/leaderboardService.ts` of the leaderboard-system repository),
together with its PostgreSQL `users` table (schema from `init/initDB`) and the
two Redis structures it drives: the sorted set `leaderboard:scores` and the
hash `users:metadata`.

Ids and scores are modelled as `Int` (JavaScript numbers on the validated
paths are integers); Redis sorted-set members are the decimal strings
`user_id.toString()`, ordered by Redis exactly by (score ascending, member
string bytewise-lexicographic ascending).
-/

namespace Leaderboard

/-- Metadata value stored in the `users:metadata` hash.  The service stores
`JSON.stringify({name, image})` and parses it back on read; the JSON
round-trip is the identity, so the hash is modelled as holding the record
directly. -/
structure Meta where
  name : String
  image : String
deriving DecidableEq, Repr

/-- A row of the PostgreSQL `users` table
(`user_id SERIAL PRIMARY KEY, user_name TEXT NOT NULL UNIQUE, image_url TEXT,
total_score INTEGER NOT NULL`). -/
structure Row where
  user_id : Int
  user_name : String
  image_url : String
  total_score : Int
deriving DecidableEq, Repr

/-- The PostgreSQL `users` table plus the `SERIAL` sequence for `user_id`
(starts at 1). -/
structure DB where
  rows : List Row
  nextId : Int
deriving DecidableEq, Repr

/-- Redis state: the `leaderboard:scores` sorted set (member string paired
with its score) and the `users:metadata` hash.  Association lists; reachable
states have unique keys. -/
structure Redis where
  zset : List (String × Int)
  hash : List (String × Meta)
deriving DecidableEq, Repr

/-- Combined state of the two collaborators the service coordinates. -/
structure St where
  db : DB
  redis : Redis
deriving DecidableEq, Repr

/-- Errors thrown by the service, by PostgreSQL, or by the JavaScript
runtime.  `validation` covers the input checks of the service; `typeError` is a
runtime `TypeError` (e.g. reading a property of `undefined`);
`pgUndefinedColumn` is PostgreSQL error 42703 for a query naming a column
the `users` table does not have; `pgUniqueViolation` is the `user_name`
unique-constraint failure; `notFound` is the
`User with ID _ not found` error of the service. -/
inductive JsError where
  | validation : String → JsError
  | typeError : String → JsError
  | pgUndefinedColumn : String → JsError
  | pgUniqueViolation : JsError
  | notFound : Int → JsError
deriving DecidableEq, Repr

/-- The hard-coded cache bound `MAX_CACHE_SIZE = 10000` of the service. -/
def MAX_CACHE_SIZE : Nat := 10000

/-! ### Redis sorted-set and hash primitives -/

/-- Bytewise-lexicographic strict order on character lists: how Redis
(memcmp) compares sorted-set members. -/
def lexLt : List Char → List Char → Bool
  | [], [] => false
  | [], _ :: _ => true
  | _ :: _, [] => false
  | a :: as, b :: bs => a < b || (a == b && lexLt as bs)

/-- Redis ascending order on sorted-set entries: score ascending, ties broken
by the member string ascending (bytewise-lexicographic). -/
def zLe (a b : String × Int) : Bool :=
  decide (a.2 < b.2) || (a.2 == b.2 && (lexLt a.1.data b.1.data || a.1 == b.1))

/-- The sorted set in Redis ascending rank order (`zLe`). -/
def zAsc (r : Redis) : List (String × Int) :=
  List.insertionSort (fun a b => zLe a b = true) r.zset

/-- The sorted set in descending rank order — score descending, ties broken
by the member string descending — as traversed by `ZREVRANGE`/`ZREVRANK`. -/
def zRevList (r : Redis) : List (String × Int) :=
  (zAsc r).reverse

/-- `ZADD key score member`: upsert of the score of a member. -/
def zAdd (r : Redis) (member : String) (score : Int) : Redis :=
  { r with zset := r.zset.filter (fun e => e.1 != member) ++ [(member, score)] }

/-- `ZSCORE key member`. -/
def zScore (r : Redis) (member : String) : Option Int :=
  (r.zset.find? (fun e => e.1 == member)).map (fun e => e.2)

/-- `ZCARD key`. -/
def zCard (r : Redis) : Nat := r.zset.length

/-- `ZREVRANK key member`: 0-based rank in descending order, `none` when the
member is not in the set. -/
def zRevRank (r : Redis) (member : String) : Option Nat :=
  (zRevList r).findIdx? (fun e => e.1 == member)

/-- Resolve a possibly-negative Redis range start index against the set
size and clamp it below at 0. -/
def resolveStart (size i : Int) : Int :=
  max (if i < 0 then size + i else i) 0

/-- Resolve a possibly-negative Redis range stop index against the set size
and clamp it above at `size - 1`. -/
def resolveStop (size i : Int) : Int :=
  min (if i < 0 then size + i else i) (size - 1)

/-- `ZREVRANGE key start stop`: members with descending rank in the inclusive
index range, negative indices counted from the end; empty when the resolved
range is empty. -/
def zRevRange (r : Redis) (start stop : Int) : List String :=
  let rev := zRevList r
  let s := resolveStart (rev.length : Int) start
  let e := resolveStop (rev.length : Int) stop
  if e < s then []
  else ((rev.take (e.toNat + 1)).drop s.toNat).map (fun x => x.1)

/-- `ZREMRANGEBYRANK key start stop`: removes the entries whose ascending
rank falls in the inclusive resolved range (rank 0 = lowest score). -/
def zRemRangeByRank (r : Redis) (start stop : Int) : Redis :=
  let asc := zAsc r
  let s := resolveStart (asc.length : Int) start
  let e := resolveStop (asc.length : Int) stop
  if e < s then r
  else { r with zset := asc.take s.toNat ++ asc.drop (e.toNat + 1) }

/-- `HSET key field value`: upsert of a hash field. -/
def hSet (r : Redis) (field : String) (v : Meta) : Redis :=
  { r with hash := r.hash.filter (fun e => e.1 != field) ++ [(field, v)] }

/-- `HGET key field`. -/
def hGet (r : Redis) (field : String) : Option Meta :=
  (r.hash.find? (fun e => e.1 == field)).map (fun e => e.2)

/-- Does the sorted set contain this member? -/
def cacheHas (r : Redis) (m : String) : Bool :=
  r.zset.any (fun e => e.1 == m)

/-- Does the `users` table contain a row with this id? -/
def dbHas (db : DB) (id : Int) : Bool :=
  db.rows.any (fun row => row.user_id == id)

/-! ### JavaScript runtime primitives used by the service -/

/-- Characters permitted in a URL scheme after the leading letter. -/
def isSchemeChar (c : Char) : Bool :=
  c.isAlphanum || c == '+' || c == '-' || c == '.'

/-- ASCII lowercasing of one character. -/
def lowerChar (c : Char) : Char :=
  if c.isUpper then Char.ofNat (c.toNat + 32) else c

/-- WHATWG special schemes that require an authority with a nonempty host. -/
def specialSchemes : List String := ["http", "https", "ws", "wss", "ftp"]

/-- Model of the WHATWG URL constructor: `isValidURL s` holds exactly when
`new URL(s)` does not throw.  The string must start with a scheme — a letter
followed by letters, digits, `+`, `-` or `.` — and a colon; for the special
schemes (http, https, ws, wss, ftp) the remainder must be `//` followed by a
nonempty host.  In particular `new URL("")` throws (no scheme), and absolute
http(s) URLs are accepted. -/
def isValidURL (s : String) : Bool :=
  match s.data with
  | [] => false
  | c :: _ =>
    c.isAlpha &&
    (let scheme := s.data.takeWhile isSchemeChar
     match s.data.drop scheme.length with
     | ':' :: r =>
       if specialSchemes.any (fun lit => scheme.map lowerChar == lit.data) then
         match r with
         | '/' :: '/' :: h =>
           !(h.takeWhile (fun d => d != '/' && d != '?' && d != '#')).isEmpty
         | _ => false
       else true
     | _ => false)

/-- Numeric value of a list of decimal digit characters. -/
def decDigits (cs : List Char) : Int :=
  cs.foldl (fun a c => a * 10 + ((c.toNat : Int) - 48)) 0

/-- Model of JavaScript `parseInt` on the canonical decimal strings that
sorted-set members take (`user_id.toString()`). -/
def parseIntJS (s : String) : Int :=
  match s.data with
  | '-' :: ds => -(decDigits ds)
  | ds => decDigits ds

/-! ### Validators (static methods of `LeaderboardService`)

The `undefined`/`null`/`typeof`/`NaN`/`Number.isInteger` checks of the
source hold vacuously for the `Int`/`String` inputs of the model; the
remaining checks are modelled. -/

/-- `validateUsername`: rejects a username that is empty after `trim()` —
i.e. one consisting entirely of whitespace. -/
def validateUsername (username : String) : Option JsError :=
  if username.data.all Char.isWhitespace then
    some (.validation "Username cannot be empty")
  else none

/-- `validateScore`: rejects a negative score. -/
def validateScore (score : Int) : Option JsError :=
  if score < 0 then some (.validation "Score must be non-negative") else none

/-- `validateUserId`: rejects a non-positive id. -/
def validateUserId (userId : Int) : Option JsError :=
  if userId ≤ 0 then
    some (.validation "User ID must be a positive integer")
  else none

/-- `validateImageUrl`: `new URL(imageUrl)`, turning a constructor throw into
a validation error.  Note there is no emptiness shortcut: the empty string
reaches the URL constructor and is rejected by it. -/
def validateImageUrl (imageUrl : String) : Option JsError :=
  if isValidURL imageUrl then none
  else some (.validation "Image URL must be a valid URL")

/-! ### The Durable Store collaborator (PostgreSQL queries of the service) -/

/-- `INSERT INTO users (user_name, total_score, image_url) VALUES ($1,$2,$3)
RETURNING user_id`: appends a row under the next `SERIAL` id, failing on the
`user_name` unique constraint.  On success also returns the assigned id —
which is the value of the `user_id` field of the returned row. -/
def dbInsert (db : DB) (name : String) (score : Int) (img : String) :
    Except JsError (DB × Int) :=
  if db.rows.any (fun r => r.user_name == name) then .error .pgUniqueViolation
  else .ok ({ rows := db.rows ++ [{ user_id := db.nextId, user_name := name,
                                    image_url := img, total_score := score }],
              nextId := db.nextId + 1 }, db.nextId)

/-- `ORDER BY total_score DESC, user_id ASC`: row `a` comes before row `b`. -/
def rowLe (a b : Row) : Bool :=
  decide (b.total_score < a.total_score) ||
    (a.total_score == b.total_score && decide (a.user_id ≤ b.user_id))

/-- The `users` table in the canonical leaderboard order
(`total_score DESC, user_id ASC`). -/
def dbOrdered (db : DB) : List Row :=
  List.insertionSort (fun a b => rowLe a b = true) db.rows

/-- Pair each row with its 1-based position, starting after `base`.  Since
`user_id` is a primary key the order key of `dbOrdered` has no ties, so SQL
`RANK() OVER (ORDER BY total_score DESC, user_id ASC)` equals the row
number. -/
def withPositions : Int → List Row → List (Row × Int)
  | _, [] => []
  | base, r :: rest => (r, base + 1) :: withPositions (base + 1) rest

/-- The ordered top-N query of the store
(`... RANK() OVER (ORDER BY total_score DESC, user_id ASC) as position
FROM users ORDER BY total_score DESC, user_id ASC LIMIT n`). -/
def dbQueryTopN (db : DB) (n : Nat) : List (Row × Int) :=
  withPositions 0 ((dbOrdered db).take n)

/-- The whole `users` table ranked by the canonical order, as computed by the
`ranked_users` CTE of the context fallback query. -/
def dbRankedAll (db : DB) : List (Row × Int) :=
  withPositions 0 (dbOrdered db)

/-! ### Result views -/

/-- The `UserWithRank` interface returned by the read operations. -/
structure UserWithRank where
  position : Int
  user_id : Int
  user_name : String
  image_url : String
  total_score : Int
deriving DecidableEq, Repr

/-- The `UserContextResponse` interface of the rank-and-context operation. -/
structure UserContextResponse where
  user : UserWithRank
  above : List UserWithRank
  below : List UserWithRank
deriving DecidableEq, Repr

/-- View of a store row together with its SQL-computed position. -/
def rowToView (x : Row × Int) : UserWithRank :=
  { position := x.2, user_id := x.1.user_id, user_name := x.1.user_name,
    image_url := x.1.image_url, total_score := x.1.total_score }

/-- `userData[index]?.name || 'Unknown'` — metadata hydration of the display
name, with the JavaScript falsy default (a missing entry or an empty name
both yield `"Unknown"`). -/
def jsName (m : Option Meta) : String :=
  match m with
  | some v => if v.name == "" then "Unknown" else v.name
  | none => "Unknown"

/-- `userData[index]?.image || ''` — metadata hydration of the image. -/
def jsImage (m : Option Meta) : String :=
  match m with
  | some v => v.image
  | none => ""

/-- `scores[index] || 0` — score hydration with the falsy default. -/
def jsScore (s : Option Int) : Int :=
  match s with
  | some v => v
  | none => 0

/-- The hydration loop shared by `getTopN` (cache path) and
`getContextUsers`: `userIds.map((userId, index) => ({position: base+index+1,
user_id: parseInt(userId), user_name: userData[index]?.name || 'Unknown',
image_url: userData[index]?.image || '', total_score: scores[index] || 0}))`,
where `userData = hmGet(HASH, userIds)` and `scores = zmScore(SET, userIds)`
are positionally aligned with `userIds`, so the entry at `index` is hydrated
from `hGet`/`zScore` of the member at `index`. -/
def hydrate (r : Redis) : Int → List String → List UserWithRank
  | _, [] => []
  | base, uid :: rest =>
    { position := base + 1, user_id := parseIntJS uid,
      user_name := jsName (hGet r uid), image_url := jsImage (hGet r uid),
      total_score := jsScore (zScore r uid) } :: hydrate r (base + 1) rest

/-! ### The four service operations and the resync job
(translated from `src/services/leaderboardService.ts`) -/

/-- `createUser(username, score, imageUrl)` from the TypeScript source.
After the three validators pass, the code runs `BEGIN` on a pooled client
but issues the `INSERT ... RETURNING user_id` through `pool.query`, i.e. on
a different auto-commit connection, so the inserted row persists regardless
of the transaction (on which no data statement, and never a `COMMIT`, is
run).  It then reads `result.rows[0].id`; the returned row only has a
`user_id` field, so the read yields `undefined`, and the subsequent
`user_id.toString()` throws a `TypeError` before any Redis command
(`zAdd`/`hSet`/`zRemRangeByRank`) is issued.  The catch block runs
`ROLLBACK` on the client — which does not undo the auto-committed insert —
and rethrows. -/
def createUser (st : St) (username : String) (score : Int) (imageUrl : String) :
    Except JsError Unit × St :=
  match validateUsername username with
  | some e => (.error e, st)
  | none =>
  match validateScore score with
  | some e => (.error e, st)
  | none =>
  match validateImageUrl imageUrl with
  | some e => (.error e, st)
  | none =>
  match dbInsert st.db username score imageUrl with
  | .error e => (.error e, st)
  | .ok (dbAfter, _assignedId) =>
    (.error (.typeError "Cannot read properties of undefined"),
     { st with db := dbAfter })

/-- `updateScore(user_id, newScore)` from the TypeScript source.  After the
validators, the code runs, inside a `BEGIN`ed transaction,
`UPDATE users SET total_score = $1 WHERE id = $2`; the `users` table
(schema in `init/initDB`: `user_id SERIAL PRIMARY KEY, user_name, image_url,
total_score`) has no column `id`, so PostgreSQL rejects the statement with
`undefined_column` (42703).  The catch block rolls the transaction back and
rethrows; neither the store nor Redis is ever modified, and the
`User with ID _ not found` branch (itself guarded by the always-empty
`result.rows` of an UPDATE without RETURNING) is never reached. -/
def updateScore (st : St) (user_id : Int) (newScore : Int) :
    Except JsError Unit × St :=
  match validateUserId user_id with
  | some e => (.error e, st)
  | none =>
  match validateScore newScore with
  | some e => (.error e, st)
  | none =>
  (.error (.pgUndefinedColumn "id"), st)

/-- `getTopUsersFromDB(n)`: the store fallback of `getTopN`, a direct map
over the ordered `LIMIT n` ranking query. -/
def getTopUsersFromDB (db : DB) (n : Nat) : List UserWithRank :=
  (dbQueryTopN db n).map rowToView

/-- `getTopN(n)`: when `n` exceeds `MAX_CACHE_SIZE`, answer from PostgreSQL;
otherwise read `ZREVRANGE 0 (n-1)` (for `n = 0` the stop index `-1` denotes
the end of the set, as in Redis), return `[]` when it is empty, and hydrate
positions `index + 1` from the metadata hash and the scores. -/
def getTopN (st : St) (n : Nat) : List UserWithRank :=
  if MAX_CACHE_SIZE < n then getTopUsersFromDB st.db n
  else
    let userIds := zRevRange st.redis 0 ((n : Int) - 1)
    if userIds.isEmpty then [] else hydrate st.redis 0 userIds

/-- `getContextUsers(startRank, endRank)`: empty if `startRank > endRank`,
else the hydrated `ZREVRANGE startRank endRank` window where the position
of each entry is computed as `startRank + index + 1`. -/
def getContextUsers (r : Redis) (startRank endRank : Int) : List UserWithRank :=
  if endRank < startRank then []
  else
    let userIds := zRevRange r startRank endRank
    if userIds.isEmpty then [] else hydrate r startRank userIds

/-- `getUserContextFromDB(userId)`: the PostgreSQL fallback of the context
query.  Its CTE ranks the whole table by the canonical order and selects the
row with the requested id (the `LAG`/`LEAD` neighbor-id columns it also
selects are never read); if no row matches, the code throws
`User with ID _ not found`, otherwise it returns the user with the
SQL-computed position and — a simplification noted in the source — empty
`above`/`below` lists. -/
def getUserContextFromDB (db : DB) (userId : Int) :
    Except JsError UserContextResponse :=
  match (dbRankedAll db).find? (fun x => x.1.user_id == userId) with
  | none => .error (.notFound userId)
  | some x => .ok { user := rowToView x, above := [], below := [] }

/-- `getUserAndSurroundings(user_id)`: looks up `ZREVRANK`, `ZSCORE` and
`HGET` for the member `user_id.toString()`.  On cache miss (rank or score
`null`) it delegates to `getUserContextFromDB`.  On cache hit it returns the
user at 1-based position `rank + 1` (metadata parsed from the hash, with the
`name Unknown, image empty` default when the hash field is absent) and
the two hydrated windows `getContextUsers(max(0, rank-5), rank-1)` and
`getContextUsers(rank+1, min(rank+5, zCard-1))`. -/
def getUserAndSurroundings (st : St) (user_id : Int) :
    Except JsError UserContextResponse :=
  let member := toString user_id
  match zRevRank st.redis member, zScore st.redis member with
  | some rank, some score =>
    let parsed := (hGet st.redis member).getD { name := "Unknown", image := "" }
    let user : UserWithRank :=
      { position := (rank : Int) + 1, user_id := user_id,
        user_name := parsed.name, image_url := parsed.image,
        total_score := score }
    let above := getContextUsers st.redis (max 0 ((rank : Int) - 5))
      ((rank : Int) - 1)
    let below := getContextUsers st.redis ((rank : Int) + 1)
      (min ((rank : Int) + 5) ((zCard st.redis : Int) - 1))
    .ok { user := user, above := above, below := below }
  | _, _ => getUserContextFromDB st.db user_id

/-- The Redis contents rebuilt by the resync job from the store alone: the
top `MAX_CACHE_SIZE` rows in the canonical order, `zAdd`ed and `hSet` in a
batch over the cleared structures. -/
def rebuildRedis (db : DB) : Redis :=
  ((dbOrdered db).take MAX_CACHE_SIZE).foldl
    (fun r row =>
      hSet (zAdd r (toString row.user_id) row.total_score)
        (toString row.user_id)
        { name := row.user_name, image := row.image_url })
    { zset := [], hash := [] }

/-- `syncCacheFromDB()`: deletes both Redis keys, reads the top
`MAX_CACHE_SIZE` rows ordered by `total_score DESC, user_id ASC`, and bulk
loads them into the sorted set and the hash. -/
def syncCacheFromDB (st : St) : St :=
  { st with redis := rebuildRedis st.db }

/-! ### Structural lemmas about the embedding -/

lemma mem_zAsc {r : Redis} {x : String × Int} : x ∈ zAsc r ↔ x ∈ r.zset :=
  (List.perm_insertionSort _ _).mem_iff

lemma mem_zRevList {r : Redis} {x : String × Int} : x ∈ zRevList r ↔ x ∈ r.zset := by
  unfold zRevList
  rw [List.mem_reverse]
  exact mem_zAsc

lemma zScore_eq_none {r : Redis} {m : String} (h : cacheHas r m = false) :
    zScore r m = none := by
  have hall := List.any_eq_false.mp h
  unfold zScore
  rw [List.find?_eq_none.mpr hall]
  rfl

lemma zRevRank_eq_none {r : Redis} {m : String} (h : cacheHas r m = false) :
    zRevRank r m = none := by
  have hall := List.any_eq_false.mp h
  unfold zRevRank
  rw [List.findIdx?_eq_none_iff]
  intro x hx
  have hx2 := hall x (mem_zRevList.mp hx)
  simpa using hx2

lemma zScore_eq_some {r : Redis} {m : String} (h : cacheHas r m = true) :
    ∃ s, zScore r m = some s := by
  obtain ⟨x, hx, px⟩ := List.any_eq_true.mp h
  have hsome : (r.zset.find? (fun e => e.1 == m)).isSome :=
    List.find?_isSome.mpr ⟨x, hx, px⟩
  unfold zScore
  cases hfind : r.zset.find? (fun e => e.1 == m) with
  | none => rw [hfind] at hsome; simp at hsome
  | some y => exact ⟨y.2, rfl⟩

lemma zRevRank_eq_some {r : Redis} {m : String} (h : cacheHas r m = true) :
    ∃ k, zRevRank r m = some k := by
  obtain ⟨x, hx, px⟩ := List.any_eq_true.mp h
  exact ⟨_, List.findIdx?_eq_some_of_exists ⟨x, mem_zRevList.mpr hx, px⟩⟩

lemma cacheHas_of_zRevRank_eq_some {r : Redis} {m : String} {k : Nat}
    (h : zRevRank r m = some k) : cacheHas r m = true := by
  cases hcv : cacheHas r m with
  | true => rfl
  | false => rw [zRevRank_eq_none hcv] at h; exact Option.noConfusion h

lemma map_fst_withPositions : ∀ (base : Int) (l : List Row),
    (withPositions base l).map Prod.fst = l
  | _, [] => rfl
  | base, r :: rest =>
    congrArg (List.cons r) (map_fst_withPositions (base + 1) rest)

lemma mem_rows_iff_dbRankedAll {db : DB} {row : Row} :
    row ∈ db.rows ↔ ∃ x ∈ dbRankedAll db, x.1 = row := by
  constructor
  · intro hr
    have h1 : row ∈ dbOrdered db := (List.perm_insertionSort _ _).mem_iff.mpr hr
    have h2 : row ∈ (dbRankedAll db).map Prod.fst := by
      rw [dbRankedAll, map_fst_withPositions]
      exact h1
    obtain ⟨x, hx, hfst⟩ := List.mem_map.mp h2
    exact ⟨x, hx, hfst⟩
  · rintro ⟨x, hx, rfl⟩
    have hmem : x.1 ∈ (dbRankedAll db).map Prod.fst := List.mem_map.mpr ⟨x, hx, rfl⟩
    rw [dbRankedAll, map_fst_withPositions] at hmem
    exact (List.perm_insertionSort _ _).mem_iff.mp hmem

lemma getUserContextFromDB_notFound_iff {db : DB} {id : Int} :
    getUserContextFromDB db id = .error (.notFound id) ↔ dbHas db id = false := by
  cases hfind : (dbRankedAll db).find? (fun x => x.1.user_id == id) with
  | none =>
    have hall := List.find?_eq_none.mp hfind
    have hdb : dbHas db id = false := by
      rw [dbHas, List.any_eq_false]
      intro row hrow
      obtain ⟨x, hx, hfst⟩ := mem_rows_iff_dbRankedAll.mp hrow
      have hnx := hall x hx
      rw [← hfst]
      exact hnx
    rw [getUserContextFromDB, hfind]
    simp [hdb]
  | some x =>
    have hpx := List.find?_some hfind
    have hxmem : x ∈ dbRankedAll db := List.mem_of_find?_eq_some hfind
    have hdb : dbHas db id = true := by
      rw [dbHas, List.any_eq_true]
      exact ⟨x.1, mem_rows_iff_dbRankedAll.mpr ⟨x, hxmem, rfl⟩, hpx⟩
    rw [getUserContextFromDB, hfind]
    simp [hdb]

lemma hydrate_get (r : Redis) :
    ∀ (ids : List String) (base : Int) (i : Nat)
      (h : i < (hydrate r base ids).length),
      ((hydrate r base ids).get ⟨i, h⟩).position = base + (i : Int) + 1
  | [], _, i, h => absurd h (by simp [hydrate])
  | uid :: rest, base, 0, h => by
    show base + 1 = base + ((0 : Nat) : Int) + 1
    simp
  | uid :: rest, base, i + 1, h => by
    have hlt : i < (hydrate r (base + 1) rest).length := by
      have := h
      simp only [hydrate, List.length_cons] at this
      omega
    have ih := hydrate_get r rest (base + 1) i hlt
    show ((hydrate r (base + 1) rest).get ⟨i, hlt⟩).position = base + ((i + 1 : Nat) : Int) + 1
    rw [ih]
    push_cast
    ring

lemma getContextUsers_eq (r : Redis) (a b : Int) :
    getContextUsers r a b = if b < a then [] else hydrate r a (zRevRange r a b) := by
  simp only [getContextUsers]
  split
  · rfl
  · split
    · next he =>
      rw [List.isEmpty_iff.mp he]
      rfl
    · rfl

lemma getContextUsers_get (r : Redis) (a b : Int) (i : Nat)
    (h : i < (getContextUsers r a b).length) :
    ((getContextUsers r a b).get ⟨i, h⟩).position = a + (i : Int) + 1 := by
  by_cases hba : b < a
  · rw [getContextUsers_eq, if_pos hba] at h
    simp at h
  · have h2 : i < (hydrate r a (zRevRange r a b)).length := by
      rw [getContextUsers_eq, if_neg hba] at h
      exact h
    have hrw : getContextUsers r a b = hydrate r a (zRevRange r a b) := by
      rw [getContextUsers_eq, if_neg hba]
    rw [List.get_of_eq hrw]
    exact hydrate_get r (zRevRange r a b) a i h2

/-! ### Concrete states used by the claim theorems -/

/-- The initial state: empty `users` table (SERIAL at 1), empty cache. -/
def emptySt : St := { db := { rows := [], nextId := 1 }, redis := { zset := [], hash := [] } }

/-- A cache holding exactly two entities with equal score 100 and ids 5
and 9 (store contents irrelevant to the cache read path). -/
def tieSt : St :=
  { db := { rows := [], nextId := 1 },
    redis := { zset := [("5", 100), ("9", 100)], hash := [] } }

/-- A state whose store and cache both hold user 1 (alice, score 50). -/
def aliceSt : St :=
  { db := { rows := [{ user_id := 1, user_name := "alice",
                       image_url := "http://example.com/a.png", total_score := 50 }],
            nextId := 2 },
    redis := { zset := [("1", 50)],
               hash := [("1", { name := "alice",
                                image := "http://example.com/a.png" })] } }

/-- A state whose store holds user 3 while the cache is empty (an id present
only in the store). -/
def storeOnlySt : St :=
  { db := { rows := [{ user_id := 3, user_name := "cara", image_url := "",
                       total_score := 5 }],
            nextId := 4 },
    redis := { zset := [], hash := [] } }

/-- A store with two equal-score users (ids 1 and 2) and a cache that
disagrees with it, for exercising the store-only top-N path. -/
def twoRowSt : St :=
  { db := { rows := [{ user_id := 2, user_name := "ben", image_url := "",
                       total_score := 100 },
                     { user_id := 1, user_name := "ann", image_url := "",
                       total_score := 100 }],
            nextId := 3 },
    redis := { zset := [("7", 1)], hash := [] } }

/-- A cache of three users at descending ranks 0,1,2 (ids 1,2,3 with scores
30,20,10) with their metadata. -/
def threeSt : St :=
  { db := { rows := [], nextId := 1 },
    redis := { zset := [("1", 30), ("2", 20), ("3", 10)],
               hash := [("1", { name := "ann", image := "" }),
                        ("2", { name := "ben", image := "" }),
                        ("3", { name := "cara", image := "" })] } }

/-! ### Claim theorems -/

/-- Claim C1: the claim — after every sequence of creates/updates from an
empty cache the Rank Index holds exactly the `min(K, number_of_entities)`
top-scoring entities — fails on this source.  Already the one-element
sequence `createUser("alice", 50, "http://example.com/a.png")` from the
empty state leaves one committed row in the store while the sorted set
stays empty: the call throws a `TypeError` (it reads the field `id` of a
row that only has `user_id`) before any Redis write, so the index holds 0
entities where the claim requires `min(K, 1) = 1`. -/
theorem C1_rank_index_diverges_from_store :
    (createUser emptySt "alice" 50 "http://example.com/a.png").1
        = .error (.typeError "Cannot read properties of undefined")
    ∧ ((createUser emptySt "alice" 50 "http://example.com/a.png").2).db.rows.length = 1
    ∧ ((createUser emptySt "alice" 50 "http://example.com/a.png").2).redis.zset.length = 0
    ∧ min MAX_CACHE_SIZE
        ((createUser emptySt "alice" 50 "http://example.com/a.png").2).db.rows.length
        ≠ ((createUser emptySt "alice" 50 "http://example.com/a.png").2).redis.zset.length :=
  ⟨rfl, rfl, rfl, by decide⟩

/-- Claim C2: the claim — `getTopN` orders equal scores by strictly
increasing numeric id, in particular `[5, 9]` for two entities of score
100 — fails on this source.  `ZREVRANGE` orders equal-score members by
descending member string, so `getTopN(2)` on that cache returns id 9 first
and id 5 second. -/
theorem C2_equal_score_tiebreak_reversed :
    getTopN tieSt 2 =
      [{ position := 1, user_id := 9, user_name := "Unknown", image_url := "",
         total_score := 100 },
       { position := 2, user_id := 5, user_name := "Unknown", image_url := "",
         total_score := 100 }]
    ∧ (getTopN tieSt 2).map (fun u => u.user_id) ≠ [5, 9] :=
  ⟨by decide, by decide⟩

/-- Claim C3: the claim — `updateScore` succeeds for every existing id and
valid score — fails on this source.  With user 1 present in the store,
`updateScore(1, 60)` still fails (the UPDATE names the nonexistent column
`id`) and leaves the whole state unchanged; no path of the function can
succeed. -/
theorem C3_updateScore_always_fails :
    dbHas aliceSt.db 1 = true
    ∧ updateScore aliceSt 1 60 = (.error (.pgUndefinedColumn "id"), aliceSt) :=
  ⟨by decide, rfl⟩

/-- Claim C4: the claim — `updateScore` on a missing id fails with
`NotFoundError` and leaves the cache untouched — fails in its error-class
half on this source: for absent id 999 the call does fail with the state
exactly unchanged, but with the undefined-column database error, never
with the `User with ID 999 not found` error (that branch is
unreachable). -/
theorem C4_notFound_error_never_raised :
    updateScore emptySt 999 50 = (.error (.pgUndefinedColumn "id"), emptySt)
    ∧ (updateScore emptySt 999 50).1 ≠ .error (.notFound 999)
    ∧ dbHas emptySt.db 999 = false := by
  refine ⟨rfl, ?_, by decide⟩
  intro h
  have h2 : (Except.error (JsError.pgUndefinedColumn "id") : Except JsError Unit)
      = .error (.notFound 999) := h
  exact absurd (Except.error.inj h2) (by decide)

/-- Claim C5: the claim — `createUser` inserts inside a transaction that is
committed on success and rolled back on failure, with nothing persisted nor
cached on failure — fails on this source.  `createUser("bob", 7, ...)` from
the empty state fails with a `TypeError`, yet the row is left committed in
the store (the INSERT runs through `pool.query` on an auto-commit
connection outside the BEGUN transaction, which itself is never committed),
while the cache stays untouched. -/
theorem C5_insert_persists_outside_transaction :
    (createUser emptySt "bob" 7 "https://example.com/b.png").1
        = .error (.typeError "Cannot read properties of undefined")
    ∧ ((createUser emptySt "bob" 7 "https://example.com/b.png").2).db.rows
        = [{ user_id := 1, user_name := "bob",
             image_url := "https://example.com/b.png", total_score := 7 }]
    ∧ ((createUser emptySt "bob" 7 "https://example.com/b.png").2).redis = emptySt.redis :=
  ⟨rfl, rfl, rfl⟩

/-- Claim C6: for every state and id, `getUserAndSurroundings` produces the
distinguished not-found outcome exactly when the id is in neither the
sorted set nor the store; and on any cache miss (so in particular for an id
present only in the store) its result is exactly that of the store-only
fallback `getUserContextFromDB`, a function of the database alone. -/
theorem C6_not_found_iff_absent_everywhere (st : St) (id : Int) :
    (getUserAndSurroundings st id = .error (.notFound id) ↔
      cacheHas st.redis (toString id) = false ∧ dbHas st.db id = false)
    ∧ (cacheHas st.redis (toString id) = false →
      getUserAndSurroundings st id = getUserContextFromDB st.db id) := by
  have hmiss : cacheHas st.redis (toString id) = false →
      getUserAndSurroundings st id = getUserContextFromDB st.db id := by
    intro h
    have h1 := zRevRank_eq_none h
    have h2 := zScore_eq_none h
    simp only [getUserAndSurroundings]
    rw [h1, h2]
  refine ⟨⟨?_, ?_⟩, hmiss⟩
  · intro hres
    cases hcv : cacheHas st.redis (toString id) with
    | true =>
      obtain ⟨k, hk⟩ := zRevRank_eq_some hcv
      obtain ⟨s, hs⟩ := zScore_eq_some hcv
      simp only [getUserAndSurroundings] at hres
      rw [hk, hs] at hres
      simp at hres
    | false =>
      rw [hmiss hcv] at hres
      exact ⟨rfl, getUserContextFromDB_notFound_iff.mp hres⟩
  · rintro ⟨hc, hd⟩
    rw [hmiss hc]
    exact getUserContextFromDB_notFound_iff.mpr hd

/-- Claim C6, witness: user 3 exists only in the store of `storeOnlySt`;
the context query for it is answered by the store-only fallback. -/
theorem C6_not_found_iff_absent_everywhere_witness :
    cacheHas storeOnlySt.redis (toString (3 : Int)) = false
    ∧ getUserAndSurroundings storeOnlySt 3 = getUserContextFromDB storeOnlySt.db 3 :=
  ⟨rfl, (C6_not_found_iff_absent_everywhere storeOnlySt 3).2 rfl⟩

/-- Claim C7: the claim — validation accepts an empty `image_ref` — fails on
this source.  For any state, `createUser` with the empty image string is
rejected by `validateImageUrl` (the WHATWG URL constructor throws on the
empty string) before any store or cache access: the state is returned
untouched with a `ValidationError`, where the claim requires acceptance. -/
theorem C7_empty_image_ref_rejected (st : St) :
    createUser st "alice" 10 ""
      = (.error (.validation "Image URL must be a valid URL"), st) := rfl

/-- Claim C8: for every state and every `n` strictly above the cache bound,
`getTopN n` is exactly the store answer `getTopUsersFromDB` — the mapped
rows of the ordered `queryTopN` with the (score DESC, id ASC) tie-break and
LIMIT `n` — computed from the database component alone, bypassing the
cache. -/
theorem C8_topN_beyond_bound_from_store (st : St) (n : Nat)
    (h : MAX_CACHE_SIZE < n) :
    getTopN st n = getTopUsersFromDB st.db n
    ∧ getTopN st n = (dbQueryTopN st.db n).map rowToView := by
  constructor
  · rw [getTopN, if_pos h]
  · rw [getTopN, if_pos h]
    rfl

/-- Claim C8, witness: `getTopN 10001` on a two-row store (equal scores,
ids 1 and 2, cache holding something else entirely) equals the store
answer, with the lower id first. -/
theorem C8_topN_beyond_bound_from_store_witness :
    MAX_CACHE_SIZE < 10001
    ∧ getTopN twoRowSt 10001 = getTopUsersFromDB twoRowSt.db 10001
    ∧ getTopN twoRowSt 10001 =
        [{ position := 1, user_id := 1, user_name := "ann", image_url := "",
           total_score := 100 },
         { position := 2, user_id := 2, user_name := "ben", image_url := "",
           total_score := 100 }] :=
  ⟨by decide, (C8_topN_beyond_bound_from_store twoRowSt 10001 (by decide)).1, by decide⟩

/-- Claim C9: on a cache hit at 0-based rank `k`, `getUserAndSurroundings`
returns the user at 1-based position `k + 1`, the above-window
`getContextUsers (max 0 (k-5)) (k-1)` and the below-window
`getContextUsers (k+1) (min (k+5) (size-1))`, and every window entry at
offset `i` carries the absolute position `startRank + i + 1` rather than a
renumbering from 1. -/
theorem C9_cache_hit_windows (st : St) (id : Int) (k : Nat)
    (hk : zRevRank st.redis (toString id) = some k) :
    ∃ resp, getUserAndSurroundings st id = .ok resp
      ∧ resp.user.position = (k : Int) + 1
      ∧ resp.above = getContextUsers st.redis (max 0 ((k : Int) - 5)) ((k : Int) - 1)
      ∧ resp.below = getContextUsers st.redis ((k : Int) + 1)
          (min ((k : Int) + 5) ((zCard st.redis : Int) - 1))
      ∧ (∀ (i : Nat) (h2 : i < resp.above.length),
          (resp.above.get ⟨i, h2⟩).position = max 0 ((k : Int) - 5) + (i : Int) + 1)
      ∧ (∀ (i : Nat) (h2 : i < resp.below.length),
          (resp.below.get ⟨i, h2⟩).position = ((k : Int) + 1) + (i : Int) + 1) := by
  obtain ⟨s, hs⟩ := zScore_eq_some (cacheHas_of_zRevRank_eq_some hk)
  refine ⟨{ user := { position := (k : Int) + 1
                      user_id := id
                      user_name := ((hGet st.redis (toString id)).getD
                        { name := "Unknown", image := "" }).name
                      image_url := ((hGet st.redis (toString id)).getD
                        { name := "Unknown", image := "" }).image
                      total_score := s }
            above := getContextUsers st.redis (max 0 ((k : Int) - 5)) ((k : Int) - 1)
            below := getContextUsers st.redis ((k : Int) + 1)
              (min ((k : Int) + 5) ((zCard st.redis : Int) - 1)) },
          ?_, rfl, rfl, rfl, ?_, ?_⟩
  · simp only [getUserAndSurroundings]
    rw [hk, hs]
  · intro i h2
    exact getContextUsers_get st.redis _ _ i h2
  · intro i h2
    exact getContextUsers_get st.redis _ _ i h2

/-- Claim C9, witness: in the three-user cache `threeSt`, user 2 sits at
0-based rank 1; the context result has position 2 and the two windows with
absolute positions. -/
theorem C9_cache_hit_windows_witness :
    zRevRank threeSt.redis (toString (2 : Int)) = some 1
    ∧ ∃ resp, getUserAndSurroundings threeSt 2 = .ok resp
      ∧ resp.user.position = ((1 : Nat) : Int) + 1
      ∧ resp.above = getContextUsers threeSt.redis
          (max 0 (((1 : Nat) : Int) - 5)) (((1 : Nat) : Int) - 1)
      ∧ resp.below = getContextUsers threeSt.redis (((1 : Nat) : Int) + 1)
          (min (((1 : Nat) : Int) + 5) ((zCard threeSt.redis : Int) - 1))
      ∧ (∀ (i : Nat) (h2 : i < resp.above.length),
          (resp.above.get ⟨i, h2⟩).position = max 0 (((1 : Nat) : Int) - 5) + (i : Int) + 1)
      ∧ (∀ (i : Nat) (h2 : i < resp.below.length),
          (resp.below.get ⟨i, h2⟩).position = (((1 : Nat) : Int) + 1) + (i : Int) + 1) :=
  ⟨rfl, C9_cache_hit_windows threeSt 2 1 rfl⟩

/-- Claim C10: bound enforcement (`ZREMRANGEBYRANK`) never touches the
metadata hash; neither `createUser` nor `updateScore` ever removes a hash
entry (on this source they leave the hash exactly unchanged); the eviction
call as issued by the service keeps the sorted set within
`MAX_CACHE_SIZE`, bounding the rank index but not the hash; and only the
resync job replaces the hash, rebuilding it from the store alone. -/
theorem C10_metadata_never_evicted :
    (∀ (r : Redis) (start stop : Int), (zRemRangeByRank r start stop).hash = r.hash)
    ∧ (∀ (st : St) (u : String) (sc : Int) (img : String),
        ((createUser st u sc img).2).redis.hash = st.redis.hash)
    ∧ (∀ (st : St) (uid sc : Int),
        ((updateScore st uid sc).2).redis.hash = st.redis.hash)
    ∧ (∀ r : Redis,
        (zRemRangeByRank r (MAX_CACHE_SIZE : Int) (-1)).zset.length ≤ MAX_CACHE_SIZE)
    ∧ (∀ st : St, (syncCacheFromDB st).redis = rebuildRedis st.db) := by
  refine ⟨?_, ?_, ?_, ?_, fun _ => rfl⟩
  · intro r start stop
    simp only [zRemRangeByRank]
    split <;> rfl
  · intro st u sc img
    unfold createUser
    cases validateUsername u with
    | some e => rfl
    | none =>
      cases validateScore sc with
      | some e => rfl
      | none =>
        cases validateImageUrl img with
        | some e => rfl
        | none =>
          cases dbInsert st.db u sc img with
          | error e => rfl
          | ok p => rfl
  · intro st uid sc
    unfold updateScore
    cases validateUserId uid with
    | some e => rfl
    | none =>
      cases validateScore sc with
      | some e => rfl
      | none => rfl
  · intro r
    have hperm : (zAsc r).length = r.zset.length :=
      (List.perm_insertionSort _ _).length_eq
    have hstart : resolveStart ((zAsc r).length : Int) (MAX_CACHE_SIZE : Int)
        = (MAX_CACHE_SIZE : Int) := by
      unfold resolveStart
      rw [if_neg (by decide)]
      exact max_eq_left (by decide)
    have hstop : resolveStop ((zAsc r).length : Int) (-1)
        = ((zAsc r).length : Int) - 1 := by
      unfold resolveStop
      rw [if_pos (by decide)]
      omega
    simp only [zRemRangeByRank]
    rw [hstart, hstop]
    split
    · omega
    · simp only [List.length_append, List.length_take, List.length_drop]
      omega

end Leaderboard
